import Mathlib

set_option linter.constructorNameAsVariable false

/-!
Shallow embedding of the drv8833-driver crate (a DRV8833 dual H-bridge motor
driver) and proofs about its specification.

The numeric core is `remap` (src/bridge.rs):

    pub fn remap(value: u8, min: u16, max: u16) -> u16 {
        let percentage = value as f32 / 100.0;
        let min = min as f32;
        let max = max as f32;
        (percentage * (max - min) + min) as u16
    }

We model IEEE-754 binary32 arithmetic exactly.  On this pipeline's domain
(`value ≤ 255`, `min, max ≤ 65535`) every intermediate `f32` value is an
integer multiple of `2 ^ (-30)`: the quotient `value / 100.0` has exponent at
least `-7` (smallest positive input `1/100 > 2 ^ (-7)`), so its units in the
last place are at least `2 ^ (-30)`, and the later products and sums only have
larger exponents.  We therefore represent each `f32` value by the integer
`v * 2 ^ 30` and implement binary32 round-to-nearest-even (24 significand
bits) as integer rounding (`f32roundS`).  Subnormals and overflow never arise
on this domain, and division by `100.0` is rounded directly from the exact
rational quotient, as IEEE division requires.
-/

namespace Drv8833

/-- Number of binary digits of `n` (`0` for `n = 0`), fuelled structural
recursion; `fuel = 64` suffices for all integers below `2 ^ 64`. -/
def bitLenAux : ℕ → ℕ → ℕ
  | 0, _ => 0
  | fuel + 1, n => if n = 0 then 0 else bitLenAux fuel (n / 2) + 1

/-- Number of binary digits of `n`: for `1 ≤ n < 2 ^ 64`,
`2 ^ (bitLen n - 1) ≤ n < 2 ^ bitLen n`. -/
def bitLen (n : ℕ) : ℕ := bitLenAux 64 n

/-- Round the fraction `a / b` to the nearest natural number, ties to even
(IEEE-754 default rounding applied to an exact nonnegative quotient). -/
def rheFrac (a b : ℕ) : ℕ :=
  let q := a / b
  let r := a % b
  if 2 * r < b then q
  else if b < 2 * r then q + 1
  else if q % 2 = 0 then q else q + 1

/-- Round the natural number `n` to at most 24 significant binary digits,
ties to even: binary32 rounding of a value represented at a fixed scale. -/
def roundN (n : ℕ) : ℕ :=
  let E := bitLen n - 1
  if E ≤ 23 then n else rheFrac n (2 ^ (E - 23)) * 2 ^ (E - 23)

/-- Binary32 round-to-nearest-even of a scaled integer (sign-symmetric, as
IEEE rounding is). -/
def f32roundS (X : ℤ) : ℤ :=
  if 0 ≤ X then (roundN X.toNat : ℤ) else -(roundN (-X).toNat : ℤ)

/-- `value as f32 / 100.0` in binary32, result scaled by `2 ^ 30`:
the exact quotient `value / 100` is rounded to 24 significand bits.
`E` is 30 plus the exponent of the quotient; for `1 ≤ value` the quotient is
at least `2 ^ (-7)`, so `23 ≤ E` and the scaled result is the integer
`mantissa * 2 ^ (E - 23)`. -/
def percentage (value : ℕ) : ℕ :=
  if value = 0 then 0
  else
    let E := bitLen (value * 2 ^ 30 / 100) - 1
    rheFrac (value * 2 ^ (53 - E)) 100 * 2 ^ (E - 23)

/-- The `f32` value computed by `remap` before the final `as u16` cast,
scaled by `2 ^ 30`: `value as f32 / 100.0 * (max as f32 - min as f32)
+ min as f32`, every operation rounded to binary32. -/
def preCastS (value mn mx : ℕ) : ℤ :=
  let p := percentage value
  let d := f32roundS ((mx : ℤ) - (mn : ℤ))
  let prod := f32roundS ((p : ℤ) * d)
  f32roundS (prod + (mn : ℤ) * 2 ^ 30)

/-- Rust `as u16` applied to an `f32` scaled by `2 ^ 30`: truncate toward
zero and saturate to `[0, 65535]`. -/
def u16castS (s : ℤ) : ℕ :=
  if s < 0 then 0 else min (s.toNat / 2 ^ 30) 65535

/-- `remap` from src/bridge.rs (`mn`, `mx` are the Rust parameters `min`,
`max`, renamed to avoid clashing with `Nat.min`/`Nat.max`). -/
def remap (value mn mx : ℕ) : ℕ :=
  u16castS (preCastS value mn mx)

/-- The remap contract as the specification words it:
`round(percent/100 * (max_duty - min_duty) + min_duty)` in exact
arithmetic. -/
def remapSpec (value mn mx : ℕ) : ℤ :=
  round ((value : ℚ) / 100 * ((mx : ℚ) - (mn : ℚ)) + (mn : ℚ))

/-! ## Hardware model

Pin and PWM handles are identified by name.  Every driver operation returns
the Rust `Result` outcome paired with the ordered trace of hardware calls it
attempted; each trace entry is tagged with whether that call succeeded.  An
`Env` oracle decides, per call, whether the underlying HAL reports success,
fixes each channel's `max_duty_cycle`, the fault-pin level and whether the
shared-PWM mutex can be acquired. -/

/-- Names for the hardware handles a DRV8833 wiring can use: the four bridge
inputs, the sleep/enable pin, the fault input and a dedicated PWM channel. -/
inductive Pin
  | in1 | in2 | in3 | in4 | sleepPin | faultPin | pwmChan
deriving DecidableEq, Repr

/-- One hardware call issued through the embedded-hal traits. -/
inductive Act
  | setHigh (p : Pin)
  | setLow (p : Pin)
  | setDuty (p : Pin) (duty : ℕ)
  | setFullyOff (p : Pin)
  | setFullyOn (p : Pin)
  | maxDutyCycle (p : Pin)
  | isLow (p : Pin)
deriving DecidableEq, Repr

/-- The external world: which hardware calls succeed, each channel's
`max_duty_cycle()`, whether the fault input reads low, and whether the
shared-PWM mutex lock can be acquired. -/
structure Env where
  ok : Act → Bool
  maxDuty : Pin → ℕ
  faultLow : Bool
  lockOk : Bool

/-- All possible errors of the crate (src/driver.rs `MotorDriverError`). -/
inductive MotorDriverError
  | GpioError
  | UnableToSetDuty
  | PwmLocked
  | InvalidRange
deriving DecidableEq, Repr

instance exceptDecEq {ε α : Type} [DecidableEq ε] [DecidableEq α] :
    DecidableEq (Except ε α) := fun a b =>
  match a, b with
  | .ok x, .ok y =>
    if h : x = y then isTrue (congrArg Except.ok h)
    else isFalse (fun hh => h (Except.ok.inj hh))
  | .error x, .error y =>
    if h : x = y then isTrue (congrArg Except.error h)
    else isFalse (fun hh => h (Except.error.inj hh))
  | .ok _, .error _ => isFalse (fun hh => Except.noConfusion hh)
  | .error _, .ok _ => isFalse (fun hh => Except.noConfusion hh)

/-- Outcome of an operation: the Rust `Result` plus the trace of attempted
hardware calls, each tagged with its success. -/
abbrev HwResult (α : Type) := Except MotorDriverError α × List (Act × Bool)

/-- Attempt one fallible hardware call, mapping failure to `e`
(the Rust `.map_err(|_| e)?` pattern). -/
def attempt (env : Env) (a : Act) (e : MotorDriverError) : HwResult Unit :=
  if env.ok a then (Except.ok (), [(a, true)]) else (Except.error e, [(a, false)])

/-- Query `max_duty_cycle()` (infallible in embedded-hal). -/
def readMax (p : Pin) : HwResult Unit :=
  (Except.ok (), [(Act.maxDutyCycle p, true)])

/-- Sequence two fallible steps: on error of the first the second is never
attempted (the Rust `?` operator). -/
def andThen {α : Type} (r : HwResult Unit) (k : HwResult α) : HwResult α :=
  match r with
  | (Except.ok _, t) => (k.1, t ++ k.2)
  | (Except.error e, t) => (Except.error e, t)

/-- src/bridge.rs `Bridge`: two output pins of one physical H-bridge. -/
structure Bridge where
  in1 : Pin
  in2 : Pin

def Bridge.new (in1 in2 : Pin) : Bridge := ⟨in1, in2⟩

/-- `Movement for Bridge`: forward = in1 high, then in2 low. -/
def Bridge.forward (b : Bridge) (env : Env) : HwResult Unit :=
  andThen (attempt env (Act.setHigh b.in1) .GpioError)
    (attempt env (Act.setLow b.in2) .GpioError)

/-- `Movement for Bridge`: reverse = in1 low, then in2 high. -/
def Bridge.reverse (b : Bridge) (env : Env) : HwResult Unit :=
  andThen (attempt env (Act.setLow b.in1) .GpioError)
    (attempt env (Act.setHigh b.in2) .GpioError)

/-- `Breaks for Bridge`: coast = both pins low. -/
def Bridge.coast (b : Bridge) (env : Env) : HwResult Unit :=
  andThen (attempt env (Act.setLow b.in1) .GpioError)
    (attempt env (Act.setLow b.in2) .GpioError)

/-- `Breaks for Bridge`: stop = both pins high. -/
def Bridge.stop (b : Bridge) (env : Env) : HwResult Unit :=
  andThen (attempt env (Act.setHigh b.in1) .GpioError)
    (attempt env (Act.setHigh b.in2) .GpioError)

/-- src/bridge.rs `PwmBridge`: a bridge on two PWM channels plus a minimum
duty threshold. -/
structure PwmBridge where
  bridge : Bridge
  min_duty : ℕ

def PwmBridge.new (in1 in2 : Pin) (min_duty : ℕ) : PwmBridge :=
  ⟨Bridge.new in1 in2, min_duty⟩

def PwmBridge.set_min_duty (pb : PwmBridge) (duty : ℕ) : PwmBridge :=
  { pb with min_duty := duty }

/-- `PwmMovement for PwmBridge::forward`: no range validation; reads
`in1.max_duty_cycle()`, sets in1's duty to the remapped percent, then sets
in2 fully off. -/
def PwmBridge.forward (pb : PwmBridge) (env : Env) (percent : ℕ) : HwResult Unit :=
  let duty := remap percent pb.min_duty (env.maxDuty pb.bridge.in1)
  andThen (readMax pb.bridge.in1)
    (andThen (attempt env (Act.setDuty pb.bridge.in1 duty) .UnableToSetDuty)
      (attempt env (Act.setFullyOff pb.bridge.in2) .UnableToSetDuty))

/-- `PwmMovement for PwmBridge::reverse`: symmetric, in1 fully off first. -/
def PwmBridge.reverse (pb : PwmBridge) (env : Env) (percent : ℕ) : HwResult Unit :=
  let duty := remap percent pb.min_duty (env.maxDuty pb.bridge.in2)
  andThen (readMax pb.bridge.in2)
    (andThen (attempt env (Act.setFullyOff pb.bridge.in1) .UnableToSetDuty)
      (attempt env (Act.setDuty pb.bridge.in2 duty) .UnableToSetDuty))

/-- `Breaks for PwmBridge::coast`: both channels fully off
(errors map to `GpioError` in the source). -/
def PwmBridge.coast (pb : PwmBridge) (env : Env) : HwResult Unit :=
  andThen (attempt env (Act.setFullyOff pb.bridge.in1) .GpioError)
    (attempt env (Act.setFullyOff pb.bridge.in2) .GpioError)

/-- `Breaks for PwmBridge::stop`: both channels fully on. -/
def PwmBridge.stop (pb : PwmBridge) (env : Env) : HwResult Unit :=
  andThen (attempt env (Act.setFullyOn pb.bridge.in1) .GpioError)
    (attempt env (Act.setFullyOn pb.bridge.in2) .GpioError)

/-- src/split_driver.rs `SplitDriver`: two independent binary bridges. -/
structure SplitDriver where
  a : Bridge
  b : Bridge

def SplitDriver.new (in1 in2 in3 in4 : Pin) : SplitDriver :=
  ⟨Bridge.new in1 in2, Bridge.new in3 in4⟩

/-- src/parallel_driver.rs `ParallelDriver`: both bridges driven
identically. -/
structure ParallelDriver where
  a : Bridge
  b : Bridge

def ParallelDriver.new (in1 in2 in3 in4 : Pin) : ParallelDriver :=
  ⟨Bridge.new in1 in2, Bridge.new in3 in4⟩

def ParallelDriver.forward (d : ParallelDriver) (env : Env) : HwResult Unit :=
  andThen (d.a.forward env) (d.b.forward env)

def ParallelDriver.reverse (d : ParallelDriver) (env : Env) : HwResult Unit :=
  andThen (d.a.reverse env) (d.b.reverse env)

def ParallelDriver.coast (d : ParallelDriver) (env : Env) : HwResult Unit :=
  andThen (d.a.coast env) (d.b.coast env)

def ParallelDriver.stop (d : ParallelDriver) (env : Env) : HwResult Unit :=
  andThen (d.a.stop env) (d.b.stop env)

/-- src/pwm_split_driver.rs `PwmSplitDriver`: two independent PWM bridges,
constructed with `min_duty = 0`. -/
structure PwmSplitDriver where
  a : PwmBridge
  b : PwmBridge

def PwmSplitDriver.new (in1 in2 in3 in4 : Pin) : PwmSplitDriver :=
  ⟨PwmBridge.new in1 in2 0, PwmBridge.new in3 in4 0⟩

def PwmSplitDriver.set_min_duty (d : PwmSplitDriver) (duty : ℕ) : PwmSplitDriver :=
  ⟨d.a.set_min_duty duty, d.b.set_min_duty duty⟩

/-- src/pwm_parallel_driver.rs `PwmParallelDriver`: a split pair of binary
bridges plus one shared, mutex-guarded PWM channel. -/
structure PwmParallelDriver where
  pwm : Pin
  split : SplitDriver
  min_duty : ℕ

def PwmParallelDriver.new (in1 in2 in3 in4 pwm : Pin) : PwmParallelDriver :=
  ⟨pwm, SplitDriver.new in1 in2 in3 in4, 0⟩

/-- `PwmParallelDriver::set_duty_cycle_percent`: validates the range, locks
the shared PWM, special-cases 0 and 100, otherwise remaps. -/
def PwmParallelDriver.set_duty_cycle_percent (d : PwmParallelDriver) (env : Env)
    (percent : ℕ) : HwResult Unit :=
  if percent > 100 then (Except.error .InvalidRange, [])
  else if !env.lockOk then (Except.error .PwmLocked, [])
  else
    match percent with
    | 0 => attempt env (Act.setFullyOff d.pwm) .UnableToSetDuty
    | 100 => attempt env (Act.setFullyOn d.pwm) .UnableToSetDuty
    | _ =>
      andThen (readMax d.pwm)
        (attempt env
          (Act.setDuty d.pwm (remap percent d.min_duty (env.maxDuty d.pwm)))
          .UnableToSetDuty)

def PwmParallelDriver.forward (d : PwmParallelDriver) (env : Env)
    (percent : ℕ) : HwResult Unit :=
  andThen (d.set_duty_cycle_percent env percent)
    (andThen (d.split.a.forward env) (d.split.b.forward env))

def PwmParallelDriver.reverse (d : PwmParallelDriver) (env : Env)
    (percent : ℕ) : HwResult Unit :=
  andThen (d.set_duty_cycle_percent env percent)
    (andThen (d.split.a.reverse env) (d.split.b.reverse env))

def PwmParallelDriver.coast (d : PwmParallelDriver) (env : Env) : HwResult Unit :=
  andThen (d.set_duty_cycle_percent env 0)
    (andThen (d.split.a.coast env) (d.split.b.coast env))

def PwmParallelDriver.stop (d : PwmParallelDriver) (env : Env) : HwResult Unit :=
  andThen (d.set_duty_cycle_percent env 100)
    (andThen (d.split.a.stop env) (d.split.b.stop env))

/-- src/driver.rs `MotorDriver`'s cross-cutting handles: the optional sleep
output pin and the optional fault input pin (fields `sleep` and `fault`;
renamed here because the method `sleep` keeps the source name). -/
structure MotorDriver where
  sleepPin : Option Pin
  faultPin : Option Pin

/-- `MotorDriver::sleep`: drive the sleep pin low; no-op returning `Ok` when
no sleep pin is configured. -/
def MotorDriver.sleep (m : MotorDriver) (env : Env) : HwResult Unit :=
  match m.sleepPin with
  | some p => attempt env (Act.setLow p) .GpioError
  | none => (Except.ok (), [])

/-- `MotorDriver::wakeup`: drive the sleep pin high; no-op returning `Ok`
when no sleep pin is configured. -/
def MotorDriver.wakeup (m : MotorDriver) (env : Env) : HwResult Unit :=
  match m.sleepPin with
  | some p => attempt env (Act.setHigh p) .GpioError
  | none => (Except.ok (), [])

/-- `MotorDriver::is_faulty`: read the fault input (active low);
`Ok(false)` without any hardware call when no fault pin is configured. -/
def MotorDriver.is_faulty (m : MotorDriver) (env : Env) : HwResult Bool :=
  match m.faultPin with
  | some p =>
    if env.ok (Act.isLow p) then (Except.ok env.faultLow, [(Act.isLow p, true)])
    else (Except.error .GpioError, [(Act.isLow p, false)])
  | none => (Except.ok false, [])

/-! ## Hardware state

The driver never reads pin state back (except the fault input); "state" is
the external pin/PWM hardware.  We replay a trace onto a state to express
frame conditions: only the successful calls of a trace take effect. -/

/-- Observable state of one PWM channel. -/
inductive DutySt
  | value (n : ℕ)
  | fullyOff
  | fullyOn
deriving DecidableEq, Repr

/-- External hardware state: logic level per pin, duty per PWM channel. -/
structure HwSt where
  level : Pin → Bool
  duty : Pin → DutySt

/-- Effect of one successful hardware call on the external state. -/
def applyAct (s : HwSt) : Act → HwSt
  | Act.setHigh p => { s with level := fun q => if q = p then true else s.level q }
  | Act.setLow p => { s with level := fun q => if q = p then false else s.level q }
  | Act.setDuty p n => { s with duty := fun q => if q = p then DutySt.value n else s.duty q }
  | Act.setFullyOff p => { s with duty := fun q => if q = p then DutySt.fullyOff else s.duty q }
  | Act.setFullyOn p => { s with duty := fun q => if q = p then DutySt.fullyOn else s.duty q }
  | Act.maxDutyCycle _ => s
  | Act.isLow _ => s

/-- Replay a tagged trace: only successful calls change the state. -/
def applyTrace (s : HwSt) (t : List (Act × Bool)) : HwSt :=
  t.foldl (fun s ab => if ab.2 then applyAct s ab.1 else s) s

/-- An environment in which every hardware call succeeds. -/
def envAllOk : Env :=
  { ok := fun _ => true, maxDuty := fun _ => 100, faultLow := false, lockOk := true }

/-- An environment in which setting `in1` high fails and everything else
succeeds. -/
def envIn1HighFails : Env :=
  { ok := fun a => decide (a ≠ Act.setHigh Pin.in1),
    maxDuty := fun _ => 100, faultLow := false, lockOk := true }

/-- An environment in which setting `in2` low fails and everything else
succeeds. -/
def envIn2LowFails : Env :=
  { ok := fun a => decide (a ≠ Act.setLow Pin.in2),
    maxDuty := fun _ => 100, faultLow := false, lockOk := true }

/-- A concrete hardware state used to instantiate frame theorems. -/
def hwSt0 : HwSt :=
  { level := fun _ => false, duty := fun _ => DutySt.value 7 }

/-! ## Arithmetic lemmas about the binary32 model -/

theorem bitLenAux_zero (f : ℕ) : bitLenAux f 0 = 0 := by
  cases f <;> simp [bitLenAux]

theorem bitLenAux_lt (f : ℕ) : ∀ n, n < 2 ^ f → n < 2 ^ bitLenAux f n := by
  induction f with
  | zero => intro n h; interval_cases n; simp [bitLenAux]
  | succ f ih =>
    intro n h
    by_cases hn : n = 0
    · subst hn; simp [bitLenAux_zero]
    · have hdiv : n / 2 < 2 ^ f := by
        have := Nat.pow_succ 2 f ▸ h
        omega
      have := ih (n / 2) hdiv
      simp only [bitLenAux, hn, if_false]
      have : n < 2 ^ (bitLenAux f (n / 2)) * 2 := by omega
      calc n < 2 ^ (bitLenAux f (n / 2)) * 2 := this
        _ = 2 ^ (bitLenAux f (n / 2) + 1) := by rw [Nat.pow_succ]

theorem bitLenAux_pos (f n : ℕ) (h1 : 1 ≤ n) (hf : f ≠ 0) : 1 ≤ bitLenAux f n := by
  cases f with
  | zero => exact absurd rfl hf
  | succ f =>
    have hn : n ≠ 0 := by omega
    simp [bitLenAux, hn]

theorem bitLenAux_le (f : ℕ) : ∀ n, n < 2 ^ f → 1 ≤ n → 2 ^ (bitLenAux f n - 1) ≤ n := by
  induction f with
  | zero => intro n h h1; omega
  | succ f ih =>
    intro n h h1
    have hn : n ≠ 0 := by omega
    simp only [bitLenAux, hn, if_false]
    by_cases hhalf : n / 2 = 0
    · have : n = 1 := by omega
      subst this
      simp [bitLenAux_zero]
    · have hdiv : n / 2 < 2 ^ f := by
        have := Nat.pow_succ 2 f ▸ h
        omega
      have hlow := ih (n / 2) hdiv (by omega)
      have hpos : 1 ≤ bitLenAux f (n / 2) := by
        apply bitLenAux_pos f (n / 2) (by omega)
        intro hf0
        subst hf0
        omega
      have heq : bitLenAux f (n / 2) + 1 - 1 = bitLenAux f (n / 2) - 1 + 1 := by omega
      rw [heq, Nat.pow_succ]
      have : 2 ^ (bitLenAux f (n / 2) - 1) * 2 ≤ (n / 2) * 2 := by omega
      omega

theorem lt_two_pow_bitLen {n : ℕ} (h : n < 2 ^ 64) : n < 2 ^ bitLen n :=
  bitLenAux_lt 64 n h

theorem two_pow_bitLen_pred_le {n : ℕ} (h : n < 2 ^ 64) (h1 : 1 ≤ n) :
    2 ^ (bitLen n - 1) ≤ n :=
  bitLenAux_le 64 n h h1

theorem bitLen_le_of_lt {n k : ℕ} (h : n < 2 ^ k) (hk : k ≤ 64) : bitLen n ≤ k := by
  by_cases hn : n = 0
  · subst hn; simp [bitLen, bitLenAux_zero]
  · have h64 : n < 2 ^ 64 := lt_of_lt_of_le h (Nat.pow_le_pow_right (by norm_num) hk)
    have hlow := two_pow_bitLen_pred_le h64 (by omega)
    by_contra hcon
    have : k ≤ bitLen n - 1 := by omega
    have : 2 ^ k ≤ 2 ^ (bitLen n - 1) := Nat.pow_le_pow_right (by norm_num) this
    omega

theorem bitLen_mono {n m : ℕ} (h : n ≤ m) (hm : m < 2 ^ 64) : bitLen n ≤ bitLen m := by
  by_cases hn : n = 0
  · subst hn; simp [bitLen, bitLenAux_zero]
  · have hn64 : n < 2 ^ 64 := by omega
    have h1 := two_pow_bitLen_pred_le hn64 (by omega)
    have h2 := lt_two_pow_bitLen hm
    by_contra hcon
    have : bitLen m ≤ bitLen n - 1 := by omega
    have : 2 ^ bitLen m ≤ 2 ^ (bitLen n - 1) := Nat.pow_le_pow_right (by norm_num) this
    omega

theorem div_le_rheFrac (a b : ℕ) : a / b ≤ rheFrac a b := by
  simp only [rheFrac]
  split_ifs <;> omega

theorem rheFrac_le_div_add_one (a b : ℕ) : rheFrac a b ≤ a / b + 1 := by
  simp only [rheFrac]
  split_ifs <;> omega

theorem rheFrac_exact {a b : ℕ} (hb : 0 < b) (h : a % b = 0) : rheFrac a b = a / b := by
  simp only [rheFrac]
  split_ifs with h1 h2 <;> omega

theorem rheFrac_mono {a1 a2 b : ℕ} (hb : 0 < b) (h : a1 ≤ a2) :
    rheFrac a1 b ≤ rheFrac a2 b := by
  have hq : a1 / b ≤ a2 / b := Nat.div_le_div_right h
  rcases Nat.lt_or_ge (a1 / b) (a2 / b) with hlt | hge
  · calc rheFrac a1 b ≤ a1 / b + 1 := rheFrac_le_div_add_one a1 b
      _ ≤ a2 / b := hlt
      _ ≤ rheFrac a2 b := div_le_rheFrac a2 b
  · have hqe : a1 / b = a2 / b := by omega
    have e1 : b * (a1 / b) + a1 % b = a1 := Nat.div_add_mod a1 b
    have e2 : b * (a2 / b) + a2 % b = a2 := Nat.div_add_mod a2 b
    have hr : a1 % b ≤ a2 % b := by
      rw [hqe] at e1
      omega
    simp only [rheFrac]
    rw [hqe]
    split_ifs <;> omega

theorem roundN_zero : roundN 0 = 0 := by
  simp [roundN, bitLen, bitLenAux_zero]

theorem roundN_eq_self_of_dvd {n : ℕ} (h : 2 ^ (bitLen n - 24) ∣ n) : roundN n = n := by
  simp only [roundN]
  split_ifs with hE
  · rfl
  · have hexp : bitLen n - 1 - 23 = bitLen n - 24 := by omega
    rw [hexp, rheFrac_exact (Nat.pos_pow_of_pos _ (by norm_num))
      (Nat.eq_zero_of_dvd_of_lt h |> fun _ => Nat.mod_eq_zero_of_dvd h)]
    exact Nat.div_mul_cancel h

theorem roundN_eq_self_of_small {n : ℕ} (h : n < 2 ^ 24) : roundN n = n := by
  have hb : bitLen n ≤ 24 := bitLen_le_of_lt h (by norm_num)
  apply roundN_eq_self_of_dvd
  have : bitLen n - 24 = 0 := by omega
  rw [this]
  simp

theorem roundN_le_two_pow_bitLen {n : ℕ} (h64 : n < 2 ^ 64) :
    roundN n ≤ 2 ^ bitLen n := by
  simp only [roundN]
  split_ifs with hE
  · exact le_of_lt (lt_two_pow_bitLen h64)
  · have hn1 : 1 ≤ n := by
      by_contra hc
      have : n = 0 := by omega
      subst this
      simp [bitLen, bitLenAux_zero] at hE
    have hB : 25 ≤ bitLen n := by omega
    have hup : n < 2 ^ bitLen n := lt_two_pow_bitLen h64
    have hsplit : 2 ^ bitLen n = 2 ^ (bitLen n - 1 - 23) * 2 ^ 24 := by
      rw [← Nat.pow_add]
      congr 1
      omega
    have hdivlt : n / 2 ^ (bitLen n - 1 - 23) < 2 ^ 24 := by
      apply Nat.div_lt_of_lt_mul
      omega
    have hrf : rheFrac n (2 ^ (bitLen n - 1 - 23)) ≤ 2 ^ 24 := by
      have := rheFrac_le_div_add_one n (2 ^ (bitLen n - 1 - 23))
      omega
    calc rheFrac n (2 ^ (bitLen n - 1 - 23)) * 2 ^ (bitLen n - 1 - 23)
        ≤ 2 ^ 24 * 2 ^ (bitLen n - 1 - 23) := Nat.mul_le_mul_right _ hrf
      _ = 2 ^ bitLen n := by rw [← Nat.pow_add]; congr 1; omega

theorem two_pow_bitLen_pred_le_roundN {n : ℕ} (h1 : 1 ≤ n) (h64 : n < 2 ^ 64) :
    2 ^ (bitLen n - 1) ≤ roundN n := by
  simp only [roundN]
  split_ifs with hE
  · exact two_pow_bitLen_pred_le h64 h1
  · have hlow : 2 ^ (bitLen n - 1) ≤ n := two_pow_bitLen_pred_le h64 h1
    have hsplit : 2 ^ (bitLen n - 1) = 2 ^ 23 * 2 ^ (bitLen n - 1 - 23) := by
      rw [← Nat.pow_add]
      congr 1
      omega
    have hdiv : 2 ^ 23 ≤ n / 2 ^ (bitLen n - 1 - 23) := by
      rw [Nat.le_div_iff_mul_le (Nat.pos_pow_of_pos _ (by norm_num))]
      omega
    have hrf : 2 ^ 23 ≤ rheFrac n (2 ^ (bitLen n - 1 - 23)) := by
      have := div_le_rheFrac n (2 ^ (bitLen n - 1 - 23))
      omega
    calc 2 ^ (bitLen n - 1) = 2 ^ 23 * 2 ^ (bitLen n - 1 - 23) := hsplit
      _ ≤ rheFrac n (2 ^ (bitLen n - 1 - 23)) * 2 ^ (bitLen n - 1 - 23) :=
        Nat.mul_le_mul_right _ hrf

set_option maxRecDepth 100000 in
theorem percentage_mono_aux : ∀ v2 < 101, ∀ v1 < 101, v1 ≤ v2 →
    percentage v1 ≤ percentage v2 := by decide

set_option maxRecDepth 100000 in
theorem percentage_le_aux : ∀ v < 101, percentage v ≤ 2 ^ 30 := by decide

theorem roundN_mono {n m : ℕ} (h : n ≤ m) (hm : m < 2 ^ 64) : roundN n ≤ roundN m := by
  by_cases hn : n = 0
  · subst hn
    rw [roundN_zero]
    exact Nat.zero_le _
  · have hn64 : n < 2 ^ 64 := by omega
    have hbl : bitLen n ≤ bitLen m := bitLen_mono h hm
    rcases Nat.lt_or_ge (bitLen n) (bitLen m) with hlt | hge
    · calc roundN n ≤ 2 ^ bitLen n := roundN_le_two_pow_bitLen hn64
        _ ≤ 2 ^ (bitLen m - 1) := Nat.pow_le_pow_right (by norm_num) (by omega)
        _ ≤ roundN m := two_pow_bitLen_pred_le_roundN (by omega) hm
    · have hbe : bitLen n = bitLen m := by omega
      simp only [roundN]
      rw [hbe]
      split_ifs with hE
      · exact h
      · exact Nat.mul_le_mul_right _
          (rheFrac_mono (Nat.pos_pow_of_pos _ (by norm_num)) h)

theorem f32roundS_natCast (n : ℕ) : f32roundS (n : ℤ) = (roundN n : ℤ) := by
  simp [f32roundS]

/-- For `mn ≤ mx` the whole `preCastS` pipeline stays in ℕ. -/
theorem preCastS_eq_nat {mn mx : ℕ} (v : ℕ) (h : mn ≤ mx) :
    preCastS v mn mx =
      ((roundN (roundN (percentage v * roundN (mx - mn)) + mn * 2 ^ 30) : ℕ) : ℤ) := by
  simp only [preCastS]
  have hd : (mx : ℤ) - (mn : ℤ) = ((mx - mn : ℕ) : ℤ) := by
    omega
  rw [hd, f32roundS_natCast]
  have hprod : ((percentage v : ℤ)) * ((roundN (mx - mn) : ℕ) : ℤ) =
      ((percentage v * roundN (mx - mn) : ℕ) : ℤ) := by
    push_cast
    ring
  rw [hprod, f32roundS_natCast]
  have hsum : ((roundN (percentage v * roundN (mx - mn)) : ℕ) : ℤ) + (mn : ℤ) * 2 ^ 30 =
      ((roundN (percentage v * roundN (mx - mn)) + mn * 2 ^ 30 : ℕ) : ℤ) := by
    push_cast
    ring
  rw [hsum, f32roundS_natCast]

theorem u16castS_natCast (k : ℕ) : u16castS (k : ℤ) = min (k / 2 ^ 30) 65535 := by
  simp [u16castS]

/-- `roundN` fixes any multiple of `2 ^ 30` up to `65535 * 2 ^ 30`
(the binary32 ulp there is at most `2 ^ 22` at this scale). -/
theorem roundN_mul_two_pow_30 {k : ℕ} (hk : k ≤ 65535) :
    roundN (k * 2 ^ 30) = k * 2 ^ 30 := by
  apply roundN_eq_self_of_dvd
  have hlt : k * 2 ^ 30 < 2 ^ 46 := by omega
  have hb : bitLen (k * 2 ^ 30) ≤ 46 := bitLen_le_of_lt hlt (by norm_num)
  have : (2 : ℕ) ^ (bitLen (k * 2 ^ 30) - 24) ∣ 2 ^ 30 :=
    Nat.pow_dvd_pow 2 (by omega)
  exact Dvd.dvd.mul_left this k

theorem remap_zero {mn : ℕ} (mx : ℕ) (hmn : mn ≤ 65535) : remap 0 mn mx = mn := by
  have hp : percentage 0 = 0 := rfl
  simp only [remap, preCastS, hp]
  have h0 : ((0 : ℕ) : ℤ) * f32roundS ((mx : ℤ) - (mn : ℤ)) = ((0 : ℕ) : ℤ) := by
    simp
  rw [h0, f32roundS_natCast, roundN_zero]
  have hsum : (((0 : ℕ) : ℤ) : ℤ) + (mn : ℤ) * 2 ^ 30 = ((mn * 2 ^ 30 : ℕ) : ℤ) := by
    push_cast
    ring
  rw [hsum, f32roundS_natCast, roundN_mul_two_pow_30 hmn, u16castS_natCast]
  rw [Nat.mul_div_cancel mn (by norm_num : (0:ℕ) < 2 ^ 30)]
  omega

theorem remap_hundred {mn mx : ℕ} (hmn : mn ≤ mx) (hmx : mx ≤ 65535) :
    remap 100 mn mx = mx := by
  have hp : percentage 100 = 2 ^ 30 := by decide
  rw [remap, preCastS_eq_nat 100 hmn, hp]
  have hd : roundN (mx - mn) = mx - mn :=
    roundN_eq_self_of_small (by omega)
  rw [hd]
  have hcomm : 2 ^ 30 * (mx - mn) = (mx - mn) * 2 ^ 30 := Nat.mul_comm _ _
  rw [hcomm, roundN_mul_two_pow_30 (by omega)]
  have hsum : (mx - mn) * 2 ^ 30 + mn * 2 ^ 30 = mx * 2 ^ 30 := by
    have : mx - mn + mn = mx := by omega
    calc (mx - mn) * 2 ^ 30 + mn * 2 ^ 30 = (mx - mn + mn) * 2 ^ 30 :=
          (Nat.add_mul _ _ _).symm
      _ = mx * 2 ^ 30 := by rw [this]
  rw [hsum, roundN_mul_two_pow_30 hmx, u16castS_natCast]
  rw [Nat.mul_div_cancel mx (by norm_num : (0:ℕ) < 2 ^ 30)]
  omega

theorem remap_mono {v1 v2 mn mx : ℕ} (h12 : v1 ≤ v2) (h2 : v2 ≤ 100)
    (hmn : mn ≤ mx) (hmx : mx ≤ 65535) : remap v1 mn mx ≤ remap v2 mn mx := by
  rw [remap, remap, preCastS_eq_nat v1 hmn, preCastS_eq_nat v2 hmn,
    u16castS_natCast, u16castS_natCast]
  have hp12 : percentage v1 ≤ percentage v2 :=
    percentage_mono_aux v2 (by omega) v1 (by omega) h12
  have hp2 : percentage v2 ≤ 2 ^ 30 := percentage_le_aux v2 (by omega)
  have hdle : roundN (mx - mn) ≤ 65535 := by
    rw [roundN_eq_self_of_small (by omega)]
    omega
  have ht12 : percentage v1 * roundN (mx - mn) ≤ percentage v2 * roundN (mx - mn) :=
    Nat.mul_le_mul_right _ hp12
  have ht2 : percentage v2 * roundN (mx - mn) < 2 ^ 47 := by
    calc percentage v2 * roundN (mx - mn) ≤ 2 ^ 30 * 65535 :=
          Nat.mul_le_mul hp2 hdle
      _ < 2 ^ 47 := by norm_num
  have hr12 : roundN (percentage v1 * roundN (mx - mn)) ≤
      roundN (percentage v2 * roundN (mx - mn)) :=
    roundN_mono ht12 (by omega)
  have hr2 : roundN (percentage v2 * roundN (mx - mn)) ≤ 2 ^ 47 := by
    calc roundN (percentage v2 * roundN (mx - mn)) ≤
        2 ^ bitLen (percentage v2 * roundN (mx - mn)) :=
          roundN_le_two_pow_bitLen (by omega)
      _ ≤ 2 ^ 47 := Nat.pow_le_pow_right (by norm_num)
          (bitLen_le_of_lt ht2 (by norm_num))
  have hs12 : roundN (roundN (percentage v1 * roundN (mx - mn)) + mn * 2 ^ 30) ≤
      roundN (roundN (percentage v2 * roundN (mx - mn)) + mn * 2 ^ 30) := by
    apply roundN_mono (by omega)
    have hmn30 : mn * 2 ^ 30 < 2 ^ 46 := by omega
    omega
  exact min_le_min (Nat.div_le_div_right hs12) le_rfl

/-! ## Claim theorems -/

/-- Claim C3, counterexample: `remap` does not equal the specified
`round(percent/100 * (max_duty - min_duty) + min_duty)`.  At
`percent = 1, min = 0, max = 150` the exact interpolation is `1.5`, which
rounds to `2`, but the final `as u16` cast truncates the `f32` value `1.5`
to `1`. -/
theorem remap_differs_from_round_contract :
    remap 1 0 150 = 1 ∧ remapSpec 1 0 150 = 2 ∧
      (remap 1 0 150 : ℤ) ≠ remapSpec 1 0 150 := by
  have h1 : remap 1 0 150 = 1 := by decide
  have h2 : remapSpec 1 0 150 = 2 := by
    rw [remapSpec, round_eq]
    norm_num
  refine ⟨h1, h2, ?_⟩
  rw [h1, h2]
  decide

/-- Claim C3, amended: `remap` computes
`percent/100 * (max_duty - min_duty) + min_duty` in binary32 arithmetic with
the final conversion truncating toward zero (not rounding); the four
documented examples hold (they are exact), while at
`percent = 1, min = 0, max = 150` truncation yields `1` where rounding would
yield `2`. -/
theorem remap_truncates_examples :
    remap 50 0 100 = 50 ∧ remap 50 10 100 = 55 ∧ remap 0 10 100 = 10 ∧
      remap 100 10 100 = 100 ∧ remap 1 0 150 = 1 := by
  refine ⟨?_, ?_, ?_, ?_, ?_⟩ <;> decide

/-- Claim C4: for `min ≤ max ≤ 65535`, `remap` is monotonically
non-decreasing in percent over `[0, 100]`, `remap 0 min max = min` and
`remap 100 min max = max`. -/
theorem remap_monotone_endpoints (v1 v2 mn mx : ℕ) (h12 : v1 ≤ v2)
    (h2 : v2 ≤ 100) (hmn : mn ≤ mx) (hmx : mx ≤ 65535) :
    remap v1 mn mx ≤ remap v2 mn mx ∧ remap 0 mn mx = mn ∧
      remap 100 mn mx = mx :=
  ⟨remap_mono h12 h2 hmn hmx, remap_zero mx (by omega), remap_hundred hmn hmx⟩

theorem remap_monotone_endpoints_witness :
    remap 3 10 100 ≤ remap 7 10 100 ∧ remap 0 10 100 = 10 ∧
      remap 100 10 100 = 100 :=
  remap_monotone_endpoints 3 7 10 100 (by decide) (by decide) (by decide)
    (by decide)

/-- Claim C10: the final `as u16` conversion in `remap` is a saturating
cast: whenever the binary32 value before the cast exceeds `65535` the result
is `65535`, and whenever it is negative the result is `0` (so `remap` is
total — no input can panic). -/
theorem remap_saturating_cast :
    (∀ v mn mx : ℕ, 65535 * 2 ^ 30 < preCastS v mn mx →
      remap v mn mx = 65535) ∧
    (∀ v mn mx : ℕ, preCastS v mn mx < 0 → remap v mn mx = 0) := by
  constructor
  · intro v mn mx h
    rw [remap, u16castS]
    rw [if_neg (by omega)]
    have hle : 65535 ≤ (preCastS v mn mx).toNat / 2 ^ 30 := by
      rw [Nat.le_div_iff_mul_le (by norm_num : (0:ℕ) < 2 ^ 30)]
      omega
    omega
  · intro v mn mx h
    rw [remap, u16castS, if_pos h]

theorem remap_saturating_cast_witness :
    (65535 * 2 ^ 30 < preCastS 255 0 65535 ∧ remap 255 0 65535 = 65535) ∧
    (preCastS 200 65535 0 < 0 ∧ remap 200 65535 0 = 0) :=
  ⟨⟨by decide, remap_saturating_cast.1 255 0 65535 (by decide)⟩,
    ⟨by decide, remap_saturating_cast.2 200 65535 0 (by decide)⟩⟩

/-- Claim C1, counterexample: `PwmBridge::forward(150)` (PWM-split bridge)
does not return `InvalidRange` and does issue PWM writes — there is no range
validation in `PwmBridge`; the out-of-range percent is remapped
(`remap 150 0 100 = 150`) and written. -/
theorem pwmBridge_forward_150_no_validation :
    PwmBridge.forward (PwmBridge.new Pin.in1 Pin.in2 0) envAllOk 150 =
      (Except.ok (), [(Act.maxDutyCycle Pin.in1, true),
        (Act.setDuty Pin.in1 150, true), (Act.setFullyOff Pin.in2, true)]) ∧
    (PwmBridge.forward (PwmBridge.new Pin.in1 Pin.in2 0) envAllOk 150).1 ≠
      Except.error MotorDriverError.InvalidRange := by
  constructor <;> decide

/-- Claim C1, amended: only the PWM-parallel driver validates the percent
range: its `forward`/`reverse` with percent > 100 return `InvalidRange`
having attempted no hardware call, while the PWM-split bridge's
`forward`/`reverse` never return `InvalidRange` for any percent. -/
theorem pwm_range_validation_parallel_only :
    (∀ (d : PwmParallelDriver) (env : Env) (percent : ℕ), 100 < percent →
      d.forward env percent = (Except.error MotorDriverError.InvalidRange, []) ∧
      d.reverse env percent = (Except.error MotorDriverError.InvalidRange, [])) ∧
    (∀ (pb : PwmBridge) (env : Env) (percent : ℕ),
      (pb.forward env percent).1 ≠ Except.error MotorDriverError.InvalidRange ∧
      (pb.reverse env percent).1 ≠ Except.error MotorDriverError.InvalidRange) := by
  constructor
  · intro d env percent hp
    have hgt : percent > 100 := hp
    constructor <;>
      simp [PwmParallelDriver.forward, PwmParallelDriver.reverse,
        PwmParallelDriver.set_duty_cycle_percent, hgt, andThen]
  · intro pb env percent
    constructor <;>
      · simp only [PwmBridge.forward, PwmBridge.reverse, readMax, attempt,
          andThen]
        split_ifs <;> simp

theorem pwm_range_validation_parallel_only_witness :
    (100 < 150 ∧
      (PwmParallelDriver.new Pin.in1 Pin.in2 Pin.in3 Pin.in4 Pin.pwmChan).forward
        envAllOk 150 = (Except.error MotorDriverError.InvalidRange, [])) ∧
    (PwmBridge.forward (PwmBridge.new Pin.in1 Pin.in2 0) envAllOk 150).1 ≠
      Except.error MotorDriverError.InvalidRange :=
  ⟨⟨by decide,
    (pwm_range_validation_parallel_only.1
      (PwmParallelDriver.new Pin.in1 Pin.in2 Pin.in3 Pin.in4 Pin.pwmChan)
      envAllOk 150 (by decide)).1⟩,
    (pwm_range_validation_parallel_only.2
      (PwmBridge.new Pin.in1 Pin.in2 0) envAllOk 150).1⟩

/-- Claim C2, counterexample: the PWM-split bridge does NOT special-case
percent = 0: with `min_duty = 10`, `forward(0)` issues
`set_duty_cycle(10)` (the remapped `min_duty`) on channel `in1` — not
`set_duty_cycle_fully_off`. -/
theorem pwmBridge_forward_zero_uses_remap :
    PwmBridge.forward (PwmBridge.new Pin.in1 Pin.in2 10) envAllOk 0 =
      (Except.ok (), [(Act.maxDutyCycle Pin.in1, true),
        (Act.setDuty Pin.in1 10, true), (Act.setFullyOff Pin.in2, true)]) ∧
    (Act.setFullyOff Pin.in1, true) ∉
      (PwmBridge.forward (PwmBridge.new Pin.in1 Pin.in2 10) envAllOk 0).2 := by
  constructor <;> decide

/-- Claim C2, amended: only the PWM-parallel driver's
`set_duty_cycle_percent` special-cases percent = 0 (channel fully off,
bypassing remap) and percent = 100 (fully on); the PWM-split bridge's
`forward` and `reverse` apply remap at every percent, so a 0 % request
writes the duty value `min_duty` rather than switching the channel fully
off, and a 100 % request writes the duty value `max_duty` rather than
switching the channel fully on. -/
theorem pwm_special_cases_parallel_only :
    (∀ (d : PwmParallelDriver) (env : Env), env.lockOk = true →
      d.set_duty_cycle_percent env 0 =
        attempt env (Act.setFullyOff d.pwm) MotorDriverError.UnableToSetDuty ∧
      d.set_duty_cycle_percent env 100 =
        attempt env (Act.setFullyOn d.pwm) MotorDriverError.UnableToSetDuty) ∧
    (∀ (pb : PwmBridge) (env : Env), pb.min_duty ≤ 65535 →
      pb.forward env 0 =
        andThen (readMax pb.bridge.in1)
          (andThen
            (attempt env (Act.setDuty pb.bridge.in1 pb.min_duty)
              MotorDriverError.UnableToSetDuty)
            (attempt env (Act.setFullyOff pb.bridge.in2)
              MotorDriverError.UnableToSetDuty)) ∧
      pb.reverse env 0 =
        andThen (readMax pb.bridge.in2)
          (andThen
            (attempt env (Act.setFullyOff pb.bridge.in1)
              MotorDriverError.UnableToSetDuty)
            (attempt env (Act.setDuty pb.bridge.in2 pb.min_duty)
              MotorDriverError.UnableToSetDuty))) ∧
    (∀ (pb : PwmBridge) (env : Env),
      pb.min_duty ≤ env.maxDuty pb.bridge.in1 →
      env.maxDuty pb.bridge.in1 ≤ 65535 →
      pb.forward env 100 =
        andThen (readMax pb.bridge.in1)
          (andThen
            (attempt env (Act.setDuty pb.bridge.in1 (env.maxDuty pb.bridge.in1))
              MotorDriverError.UnableToSetDuty)
            (attempt env (Act.setFullyOff pb.bridge.in2)
              MotorDriverError.UnableToSetDuty))) ∧
    (∀ (pb : PwmBridge) (env : Env),
      pb.min_duty ≤ env.maxDuty pb.bridge.in2 →
      env.maxDuty pb.bridge.in2 ≤ 65535 →
      pb.reverse env 100 =
        andThen (readMax pb.bridge.in2)
          (andThen
            (attempt env (Act.setFullyOff pb.bridge.in1)
              MotorDriverError.UnableToSetDuty)
            (attempt env (Act.setDuty pb.bridge.in2 (env.maxDuty pb.bridge.in2))
              MotorDriverError.UnableToSetDuty))) := by
  refine ⟨?_, ?_, ?_, ?_⟩
  · intro d env hlock
    constructor <;> simp [PwmParallelDriver.set_duty_cycle_percent, hlock]
  · intro pb env hmd
    constructor <;>
      simp [PwmBridge.forward, PwmBridge.reverse, remap_zero _ hmd]
  · intro pb env hle hmx
    simp [PwmBridge.forward, remap_hundred hle hmx]
  · intro pb env hle hmx
    simp [PwmBridge.reverse, remap_hundred hle hmx]

theorem pwm_special_cases_parallel_only_witness :
    (envAllOk.lockOk = true ∧
      (PwmParallelDriver.new Pin.in1 Pin.in2 Pin.in3 Pin.in4 Pin.pwmChan).set_duty_cycle_percent
          envAllOk 0 =
        attempt envAllOk (Act.setFullyOff Pin.pwmChan)
          MotorDriverError.UnableToSetDuty) ∧
    ((PwmBridge.new Pin.in1 Pin.in2 10).min_duty ≤ 65535 ∧
      PwmBridge.reverse (PwmBridge.new Pin.in1 Pin.in2 10) envAllOk 0 =
        andThen (readMax Pin.in2)
          (andThen
            (attempt envAllOk (Act.setFullyOff Pin.in1)
              MotorDriverError.UnableToSetDuty)
            (attempt envAllOk (Act.setDuty Pin.in2 10)
              MotorDriverError.UnableToSetDuty))) ∧
    ((PwmBridge.new Pin.in1 Pin.in2 10).min_duty ≤ envAllOk.maxDuty Pin.in1 ∧
      envAllOk.maxDuty Pin.in1 ≤ 65535 ∧
      PwmBridge.forward (PwmBridge.new Pin.in1 Pin.in2 10) envAllOk 100 =
        andThen (readMax Pin.in1)
          (andThen
            (attempt envAllOk (Act.setDuty Pin.in1 100)
              MotorDriverError.UnableToSetDuty)
            (attempt envAllOk (Act.setFullyOff Pin.in2)
              MotorDriverError.UnableToSetDuty))) ∧
    ((PwmBridge.new Pin.in1 Pin.in2 10).min_duty ≤ envAllOk.maxDuty Pin.in2 ∧
      envAllOk.maxDuty Pin.in2 ≤ 65535 ∧
      PwmBridge.reverse (PwmBridge.new Pin.in1 Pin.in2 10) envAllOk 100 =
        andThen (readMax Pin.in2)
          (andThen
            (attempt envAllOk (Act.setFullyOff Pin.in1)
              MotorDriverError.UnableToSetDuty)
            (attempt envAllOk (Act.setDuty Pin.in2 100)
              MotorDriverError.UnableToSetDuty))) :=
  ⟨⟨rfl,
    (pwm_special_cases_parallel_only.1
      (PwmParallelDriver.new Pin.in1 Pin.in2 Pin.in3 Pin.in4 Pin.pwmChan)
      envAllOk rfl).1⟩,
    ⟨by decide,
      (pwm_special_cases_parallel_only.2.1 (PwmBridge.new Pin.in1 Pin.in2 10)
        envAllOk (by decide)).2⟩,
    ⟨by decide, by decide,
      pwm_special_cases_parallel_only.2.2.1 (PwmBridge.new Pin.in1 Pin.in2 10)
        envAllOk (by decide) (by decide)⟩,
    ⟨by decide, by decide,
      pwm_special_cases_parallel_only.2.2.2 (PwmBridge.new Pin.in1 Pin.in2 10)
        envAllOk (by decide) (by decide)⟩⟩

/-- Claim C5: on a binary `Bridge`, when every pin write succeeds,
`forward` sets in1 high then in2 low, `reverse` sets in1 low then in2 high,
`coast` sets both low and `stop` sets both high — and the resulting pin
levels hold regardless of the prior hardware state. -/
theorem bridge_binary_semantics (env : Env) (henv : ∀ a, env.ok a = true)
    (s : HwSt) :
    (Bridge.forward (Bridge.new Pin.in1 Pin.in2) env =
      (Except.ok (), [(Act.setHigh Pin.in1, true), (Act.setLow Pin.in2, true)]) ∧
     (applyTrace s (Bridge.forward (Bridge.new Pin.in1 Pin.in2) env).2).level Pin.in1 = true ∧
     (applyTrace s (Bridge.forward (Bridge.new Pin.in1 Pin.in2) env).2).level Pin.in2 = false) ∧
    (Bridge.reverse (Bridge.new Pin.in1 Pin.in2) env =
      (Except.ok (), [(Act.setLow Pin.in1, true), (Act.setHigh Pin.in2, true)]) ∧
     (applyTrace s (Bridge.reverse (Bridge.new Pin.in1 Pin.in2) env).2).level Pin.in1 = false ∧
     (applyTrace s (Bridge.reverse (Bridge.new Pin.in1 Pin.in2) env).2).level Pin.in2 = true) ∧
    (Bridge.coast (Bridge.new Pin.in1 Pin.in2) env =
      (Except.ok (), [(Act.setLow Pin.in1, true), (Act.setLow Pin.in2, true)]) ∧
     (applyTrace s (Bridge.coast (Bridge.new Pin.in1 Pin.in2) env).2).level Pin.in1 = false ∧
     (applyTrace s (Bridge.coast (Bridge.new Pin.in1 Pin.in2) env).2).level Pin.in2 = false) ∧
    (Bridge.stop (Bridge.new Pin.in1 Pin.in2) env =
      (Except.ok (), [(Act.setHigh Pin.in1, true), (Act.setHigh Pin.in2, true)]) ∧
     (applyTrace s (Bridge.stop (Bridge.new Pin.in1 Pin.in2) env).2).level Pin.in1 = true ∧
     (applyTrace s (Bridge.stop (Bridge.new Pin.in1 Pin.in2) env).2).level Pin.in2 = true) := by
  refine ⟨⟨?_, ?_, ?_⟩, ⟨?_, ?_, ?_⟩, ⟨?_, ?_, ?_⟩, ⟨?_, ?_, ?_⟩⟩ <;>
    simp [Bridge.forward, Bridge.reverse, Bridge.coast, Bridge.stop,
      Bridge.new, attempt, andThen, henv, applyTrace, applyAct]

theorem bridge_binary_semantics_witness :
    (Bridge.forward (Bridge.new Pin.in1 Pin.in2) envAllOk =
      (Except.ok (), [(Act.setHigh Pin.in1, true), (Act.setLow Pin.in2, true)]) ∧
     (applyTrace hwSt0 (Bridge.forward (Bridge.new Pin.in1 Pin.in2) envAllOk).2).level Pin.in1 = true ∧
     (applyTrace hwSt0 (Bridge.forward (Bridge.new Pin.in1 Pin.in2) envAllOk).2).level Pin.in2 = false) ∧
    (Bridge.reverse (Bridge.new Pin.in1 Pin.in2) envAllOk =
      (Except.ok (), [(Act.setLow Pin.in1, true), (Act.setHigh Pin.in2, true)]) ∧
     (applyTrace hwSt0 (Bridge.reverse (Bridge.new Pin.in1 Pin.in2) envAllOk).2).level Pin.in1 = false ∧
     (applyTrace hwSt0 (Bridge.reverse (Bridge.new Pin.in1 Pin.in2) envAllOk).2).level Pin.in2 = true) ∧
    (Bridge.coast (Bridge.new Pin.in1 Pin.in2) envAllOk =
      (Except.ok (), [(Act.setLow Pin.in1, true), (Act.setLow Pin.in2, true)]) ∧
     (applyTrace hwSt0 (Bridge.coast (Bridge.new Pin.in1 Pin.in2) envAllOk).2).level Pin.in1 = false ∧
     (applyTrace hwSt0 (Bridge.coast (Bridge.new Pin.in1 Pin.in2) envAllOk).2).level Pin.in2 = false) ∧
    (Bridge.stop (Bridge.new Pin.in1 Pin.in2) envAllOk =
      (Except.ok (), [(Act.setHigh Pin.in1, true), (Act.setHigh Pin.in2, true)]) ∧
     (applyTrace hwSt0 (Bridge.stop (Bridge.new Pin.in1 Pin.in2) envAllOk).2).level Pin.in1 = true ∧
     (applyTrace hwSt0 (Bridge.stop (Bridge.new Pin.in1 Pin.in2) envAllOk).2).level Pin.in2 = true) :=
  bridge_binary_semantics envAllOk (fun _ => rfl) hwSt0

/-- Claim C6: in every two-write `Bridge` operation, if the first pin write
fails the operation stops with `GpioError` having attempted only that first
call; if the second write fails, the operation surfaces the error with
exactly the two attempts traced — nothing undoes the first pin's new state
(for `forward`, in1 stays high and in2 keeps its prior level). -/
theorem bridge_fail_fast_no_rollback (env : Env) :
    (env.ok (Act.setHigh Pin.in1) = false →
      Bridge.forward (Bridge.new Pin.in1 Pin.in2) env =
        (Except.error MotorDriverError.GpioError, [(Act.setHigh Pin.in1, false)]) ∧
      Bridge.stop (Bridge.new Pin.in1 Pin.in2) env =
        (Except.error MotorDriverError.GpioError, [(Act.setHigh Pin.in1, false)])) ∧
    (env.ok (Act.setHigh Pin.in1) = true → env.ok (Act.setLow Pin.in2) = false →
      Bridge.forward (Bridge.new Pin.in1 Pin.in2) env =
        (Except.error MotorDriverError.GpioError,
          [(Act.setHigh Pin.in1, true), (Act.setLow Pin.in2, false)]) ∧
      ∀ s : HwSt,
        (applyTrace s (Bridge.forward (Bridge.new Pin.in1 Pin.in2) env).2).level Pin.in1 = true ∧
        (applyTrace s (Bridge.forward (Bridge.new Pin.in1 Pin.in2) env).2).level Pin.in2 =
          s.level Pin.in2) ∧
    (env.ok (Act.setLow Pin.in1) = false →
      Bridge.reverse (Bridge.new Pin.in1 Pin.in2) env =
        (Except.error MotorDriverError.GpioError, [(Act.setLow Pin.in1, false)]) ∧
      Bridge.coast (Bridge.new Pin.in1 Pin.in2) env =
        (Except.error MotorDriverError.GpioError, [(Act.setLow Pin.in1, false)])) ∧
    (env.ok (Act.setLow Pin.in1) = true → env.ok (Act.setHigh Pin.in2) = false →
      Bridge.reverse (Bridge.new Pin.in1 Pin.in2) env =
        (Except.error MotorDriverError.GpioError,
          [(Act.setLow Pin.in1, true), (Act.setHigh Pin.in2, false)]) ∧
      ∀ s : HwSt,
        (applyTrace s (Bridge.reverse (Bridge.new Pin.in1 Pin.in2) env).2).level Pin.in1 = false ∧
        (applyTrace s (Bridge.reverse (Bridge.new Pin.in1 Pin.in2) env).2).level Pin.in2 =
          s.level Pin.in2) ∧
    (env.ok (Act.setLow Pin.in1) = true → env.ok (Act.setLow Pin.in2) = false →
      Bridge.coast (Bridge.new Pin.in1 Pin.in2) env =
        (Except.error MotorDriverError.GpioError,
          [(Act.setLow Pin.in1, true), (Act.setLow Pin.in2, false)])) ∧
    (env.ok (Act.setHigh Pin.in1) = true → env.ok (Act.setHigh Pin.in2) = false →
      Bridge.stop (Bridge.new Pin.in1 Pin.in2) env =
        (Except.error MotorDriverError.GpioError,
          [(Act.setHigh Pin.in1, true), (Act.setHigh Pin.in2, false)])) := by
  refine ⟨?_, ?_, ?_, ?_, ?_, ?_⟩
  · intro h1
    constructor <;>
      simp [Bridge.forward, Bridge.stop, Bridge.new, attempt, andThen, h1]
  · intro h1 h2
    refine ⟨?_, ?_⟩
    · simp [Bridge.forward, Bridge.new, attempt, andThen, h1, h2]
    · intro s
      constructor <;>
        simp [Bridge.forward, Bridge.new, attempt, andThen, h1, h2,
          applyTrace, applyAct]
  · intro h1
    constructor <;>
      simp [Bridge.reverse, Bridge.coast, Bridge.new, attempt, andThen, h1]
  · intro h1 h2
    refine ⟨?_, ?_⟩
    · simp [Bridge.reverse, Bridge.new, attempt, andThen, h1, h2]
    · intro s
      constructor <;>
        simp [Bridge.reverse, Bridge.new, attempt, andThen, h1, h2,
          applyTrace, applyAct]
  · intro h1 h2
    simp [Bridge.coast, Bridge.new, attempt, andThen, h1, h2]
  · intro h1 h2
    simp [Bridge.stop, Bridge.new, attempt, andThen, h1, h2]

theorem bridge_fail_fast_no_rollback_witness :
    (Bridge.forward (Bridge.new Pin.in1 Pin.in2) envIn1HighFails =
      (Except.error MotorDriverError.GpioError, [(Act.setHigh Pin.in1, false)]) ∧
     Bridge.stop (Bridge.new Pin.in1 Pin.in2) envIn1HighFails =
      (Except.error MotorDriverError.GpioError, [(Act.setHigh Pin.in1, false)])) ∧
    (Bridge.forward (Bridge.new Pin.in1 Pin.in2) envIn2LowFails =
      (Except.error MotorDriverError.GpioError,
        [(Act.setHigh Pin.in1, true), (Act.setLow Pin.in2, false)]) ∧
     (applyTrace hwSt0 (Bridge.forward (Bridge.new Pin.in1 Pin.in2) envIn2LowFails).2).level Pin.in1 = true ∧
     (applyTrace hwSt0 (Bridge.forward (Bridge.new Pin.in1 Pin.in2) envIn2LowFails).2).level Pin.in2 =
       hwSt0.level Pin.in2) :=
  ⟨(bridge_fail_fast_no_rollback envIn1HighFails).1 (by decide),
    ⟨((bridge_fail_fast_no_rollback envIn2LowFails).2.1 (by decide) (by decide)).1,
      (((bridge_fail_fast_no_rollback envIn2LowFails).2.1 (by decide) (by decide)).2 hwSt0).1,
      (((bridge_fail_fast_no_rollback envIn2LowFails).2.1 (by decide) (by decide)).2 hwSt0).2⟩⟩

/-- Claim C7: in parallel mode, each single call drives both bridges with
the identical pin sequence in order: `forward` is in1 high, in2 low, in3
high, in4 low; likewise `reverse`, `coast` and `stop`. -/
theorem parallel_identical_pin_sequences (env : Env)
    (henv : ∀ a, env.ok a = true) :
    (ParallelDriver.new Pin.in1 Pin.in2 Pin.in3 Pin.in4).forward env =
      (Except.ok (), [(Act.setHigh Pin.in1, true), (Act.setLow Pin.in2, true),
        (Act.setHigh Pin.in3, true), (Act.setLow Pin.in4, true)]) ∧
    (ParallelDriver.new Pin.in1 Pin.in2 Pin.in3 Pin.in4).reverse env =
      (Except.ok (), [(Act.setLow Pin.in1, true), (Act.setHigh Pin.in2, true),
        (Act.setLow Pin.in3, true), (Act.setHigh Pin.in4, true)]) ∧
    (ParallelDriver.new Pin.in1 Pin.in2 Pin.in3 Pin.in4).coast env =
      (Except.ok (), [(Act.setLow Pin.in1, true), (Act.setLow Pin.in2, true),
        (Act.setLow Pin.in3, true), (Act.setLow Pin.in4, true)]) ∧
    (ParallelDriver.new Pin.in1 Pin.in2 Pin.in3 Pin.in4).stop env =
      (Except.ok (), [(Act.setHigh Pin.in1, true), (Act.setHigh Pin.in2, true),
        (Act.setHigh Pin.in3, true), (Act.setHigh Pin.in4, true)]) := by
  refine ⟨?_, ?_, ?_, ?_⟩ <;>
    simp [ParallelDriver.new, ParallelDriver.forward, ParallelDriver.reverse,
      ParallelDriver.coast, ParallelDriver.stop, Bridge.new, Bridge.forward,
      Bridge.reverse, Bridge.coast, Bridge.stop, attempt, andThen, henv]

theorem parallel_identical_pin_sequences_witness :
    (ParallelDriver.new Pin.in1 Pin.in2 Pin.in3 Pin.in4).forward envAllOk =
      (Except.ok (), [(Act.setHigh Pin.in1, true), (Act.setLow Pin.in2, true),
        (Act.setHigh Pin.in3, true), (Act.setLow Pin.in4, true)]) ∧
    (ParallelDriver.new Pin.in1 Pin.in2 Pin.in3 Pin.in4).reverse envAllOk =
      (Except.ok (), [(Act.setLow Pin.in1, true), (Act.setHigh Pin.in2, true),
        (Act.setLow Pin.in3, true), (Act.setHigh Pin.in4, true)]) ∧
    (ParallelDriver.new Pin.in1 Pin.in2 Pin.in3 Pin.in4).coast envAllOk =
      (Except.ok (), [(Act.setLow Pin.in1, true), (Act.setLow Pin.in2, true),
        (Act.setLow Pin.in3, true), (Act.setLow Pin.in4, true)]) ∧
    (ParallelDriver.new Pin.in1 Pin.in2 Pin.in3 Pin.in4).stop envAllOk =
      (Except.ok (), [(Act.setHigh Pin.in1, true), (Act.setHigh Pin.in2, true),
        (Act.setHigh Pin.in3, true), (Act.setHigh Pin.in4, true)]) :=
  parallel_identical_pin_sequences envAllOk (fun _ => rfl)

/-- Claim C8: every operation on an absent optional handle is a no-op
returning success: `is_faulty` with no fault pin returns `Ok(false)` with no
hardware call, and `sleep`/`wakeup` with no sleep pin return `Ok(())` with
no hardware call. -/
theorem absent_optional_handles_noop (env : Env) (sp fp : Option Pin) :
    MotorDriver.sleep ⟨none, fp⟩ env = (Except.ok (), []) ∧
    MotorDriver.wakeup ⟨none, fp⟩ env = (Except.ok (), []) ∧
    MotorDriver.is_faulty ⟨sp, none⟩ env = (Except.ok false, []) :=
  ⟨rfl, rfl, rfl⟩

/-- Claim C9: `is_faulty` performs no state-changing call (replaying its
trace fixes every hardware state), and `sleep`/`wakeup` touch only the sleep
pin: the four bridge pin levels and every PWM duty are unchanged. -/
theorem sleep_fault_orthogonal_to_bridge (env : Env) (m : MotorDriver)
    (fp : Option Pin) (s : HwSt) :
    applyTrace s (MotorDriver.is_faulty m env).2 = s ∧
    ((MotorDriver.sleep ⟨some Pin.sleepPin, fp⟩ env).2 =
      [(Act.setLow Pin.sleepPin, env.ok (Act.setLow Pin.sleepPin))] ∧
     (applyTrace s (MotorDriver.sleep ⟨some Pin.sleepPin, fp⟩ env).2).level Pin.in1 = s.level Pin.in1 ∧
     (applyTrace s (MotorDriver.sleep ⟨some Pin.sleepPin, fp⟩ env).2).level Pin.in2 = s.level Pin.in2 ∧
     (applyTrace s (MotorDriver.sleep ⟨some Pin.sleepPin, fp⟩ env).2).level Pin.in3 = s.level Pin.in3 ∧
     (applyTrace s (MotorDriver.sleep ⟨some Pin.sleepPin, fp⟩ env).2).level Pin.in4 = s.level Pin.in4 ∧
     (applyTrace s (MotorDriver.sleep ⟨some Pin.sleepPin, fp⟩ env).2).duty = s.duty) ∧
    ((MotorDriver.wakeup ⟨some Pin.sleepPin, fp⟩ env).2 =
      [(Act.setHigh Pin.sleepPin, env.ok (Act.setHigh Pin.sleepPin))] ∧
     (applyTrace s (MotorDriver.wakeup ⟨some Pin.sleepPin, fp⟩ env).2).level Pin.in1 = s.level Pin.in1 ∧
     (applyTrace s (MotorDriver.wakeup ⟨some Pin.sleepPin, fp⟩ env).2).level Pin.in2 = s.level Pin.in2 ∧
     (applyTrace s (MotorDriver.wakeup ⟨some Pin.sleepPin, fp⟩ env).2).level Pin.in3 = s.level Pin.in3 ∧
     (applyTrace s (MotorDriver.wakeup ⟨some Pin.sleepPin, fp⟩ env).2).level Pin.in4 = s.level Pin.in4 ∧
     (applyTrace s (MotorDriver.wakeup ⟨some Pin.sleepPin, fp⟩ env).2).duty = s.duty) := by
  refine ⟨?_, ⟨?_, ?_, ?_, ?_, ?_, ?_⟩, ⟨?_, ?_, ?_, ?_, ?_, ?_⟩⟩
  · rcases m with ⟨sp, fpm⟩
    rcases fpm with _ | p
    · rfl
    · by_cases h : env.ok (Act.isLow p) = true <;>
        simp [MotorDriver.is_faulty, h, applyTrace, applyAct]
  all_goals
    by_cases h : env.ok (Act.setLow Pin.sleepPin) = true <;>
    by_cases h2 : env.ok (Act.setHigh Pin.sleepPin) = true <;>
      simp [MotorDriver.sleep, MotorDriver.wakeup, attempt, h, h2,
        applyTrace, applyAct]

end Drv8833
